import Mathlib

set_option maxRecDepth 8192

namespace MysqlMcp

/-! Shallow embedding of cocobond/mysql-mcp (cmd/main.go).
Go strings are modeled as sequences of characters (Lean String / List Char);
the database connection is modeled as an oracle mapping SQL text to either an
error message or a set of rows.  Every statement handed to db.Query is recorded
in a trace, tagged with whether it was routed through executeQuery (and hence
through its statement-prefix safety check) on the way to the database. -/

/-- Whitespace predicate of Go strings.TrimSpace (unicode.IsSpace). -/
def goIsSpace (c : Char) : Bool :=
  c = ' ' || c = '\t' || c = '\n' || c = '\r' || c = '\x0b' ||
    c = '\x0c' || c = '\x85' || c = '\xa0'

/-- Go strings.TrimSpace: drop leading and trailing whitespace. -/
def goTrimSpace (s : String) : String :=
  String.mk (((s.data.dropWhile goIsSpace).reverse.dropWhile goIsSpace).reverse)

/-- Go strings.ToUpper (ASCII letters; other characters unchanged). -/
def goToUpper (s : String) : String :=
  String.mk (s.data.map Char.toUpper)

/-- Go strings.HasPrefix. -/
def goStartsWith (s pre : String) : Bool :=
  List.isPrefixOf pre.data s.data

/-- Go s[:n] slicing of a string, at character level. -/
def goTake (s : String) (n : Nat) : String :=
  String.mk (s.data.take n)

/-- Digit accumulation with explicit fuel (structural recursion so that
the definition evaluates by reduction; n+1 fuel always suffices). -/
def natDigitsAux : Nat → Nat → List Char → List Char
  | 0, _, acc => acc
  | fuel+1, n, acc =>
    if n < 10 then Nat.digitChar n :: acc
    else natDigitsAux fuel (n / 10) (Nat.digitChar (n % 10) :: acc)

/-- Decimal digit list of a natural number (as printed by Go fmt %d). -/
def natDigits (n : Nat) : List Char := natDigitsAux (n + 1) n []

/-- Go fmt %d on a natural number. -/
def natToStr (n : Nat) : String := String.mk (natDigits n)

/-- Go strconv.Itoa. -/
def intToStr (i : Int) : String :=
  if i < 0 then "-" ++ natToStr i.natAbs else natToStr i.natAbs

/-- Go fmt %-*s: left-justify to the given width, never truncating. -/
def padRight (s : String) (w : Nat) : String :=
  s ++ String.mk (List.replicate (w - s.length) ' ')

/-- A decoded JSON value (what a Go interface holds after encoding/json
decoding).  Numbers are modeled as integers: Go decodes JSON numbers to
float64, and the only numeric argument (limit) is immediately truncated
with int(). -/
inductive GoVal where
  | null
  | boolean (b : Bool)
  | num (n : Int)
  | str (s : String)
  | arr (elems : List GoVal)
  | obj (fields : List (String × GoVal))

/-- A database cell after driver conversion and the []byte-to-string
coercion in executeQuery: none is SQL NULL, some s is the value's string
form (Go fmt %v). -/
abbrev Cell := Option String

/-- Result of a db.Query call: ordered column names and positional rows. -/
structure QueryResult where
  columns : List String
  rows : List (List Cell)

/-- The database collaborator: maps SQL text to rows or an error message. -/
def DBOracle := String → Except String QueryResult

/-- MCPServer state: the database handle and the configured database name. -/
structure Server where
  db : DBOracle
  dbName : String

/-- A statement handed to db.Query, tagged with whether it was routed
through executeQuery (and so through its prefix check) before reaching
the database. -/
structure IssuedStmt where
  sql : String
  gated : Bool
  deriving DecidableEq

structure MCPError where
  code : Int
  message : String
  deriving DecidableEq

structure PropSpec where
  type : String
  description : String

structure ToolInputSchema where
  type : String
  properties : List (String × PropSpec)
  required : List String

structure Tool where
  name : String
  description : String
  inputSchema : ToolInputSchema

/-- The result payloads the server can produce: the fixed initialize
payload, the tool catalog, or a single text content block
(the map with a one-element "content" list built by each tool handler). -/
inductive RpcResult where
  | payload (v : GoVal)
  | toolsList (tools : List Tool)
  | content (text : String)

structure MCPResponse where
  jsonrpc : String
  id : GoVal
  result : Option RpcResult
  error : Option MCPError

/-- Parse outcome of a request's raw params field: absent (nil
json.RawMessage, Unmarshal fails), malformed JSON (Unmarshal fails), or
the decoded name/arguments pair. -/
inductive RawParams where
  | absent
  | malformed
  | wellFormed (name : String) (arguments : List (String × GoVal))

structure MCPRequest where
  jsonrpc : String
  id : GoVal
  method : String
  params : RawParams

/-- Go map lookup on a decoded JSON object (later duplicate keys win, as
in encoding/json). -/
def mapGet (m : List (String × GoVal)) (k : String) : Option GoVal :=
  m.foldl (fun acc p => if p.1 = k then some p.2 else acc) none

/-- errorResponse: the single error constructor used by tool dispatch,
always code -32603. -/
def errorResponse (id : GoVal) (message : String) : MCPResponse :=
  ⟨"2.0", id, none, some ⟨-32603, message⟩⟩

/-- The fixed rejection message of the query safety check. -/
def gateMsg : String := "只允许执行SELECT、SHOW、DESCRIBE查询"

/-- The fixed sentinel line appended for an empty result set. -/
def noRowsMsg : String := "没有找到数据"

/-- Pointwise update of a row map (Go map assignment row[col] = v). -/
def updRow (m : String → Cell) (k : String) (v : Cell) : String → Cell :=
  fun k2 => if k2 = k then v else m k2

/-- The row map built by executeQuery: row[col] = values[i] for each
column index i (missing keys read as nil, i.e. NULL). -/
def buildRow (columns : List String) (values : List Cell) : String → Cell :=
  (columns.zip values).foldl (fun m cv => updRow m cv.1 cv.2) (fun _ => none)

/-- The string form of a cell as used for width computation:
"NULL" for nil, fmt %v otherwise. -/
def valueToStr (v : Cell) : String :=
  match v with
  | none => "NULL"
  | some s => s

/-- The string rendered into a data cell: "NULL" for nil; a non-nil value
longer than 30 characters becomes its first 27 characters plus "...". -/
def truncateVal (v : Cell) : String :=
  match v with
  | none => "NULL"
  | some s => if s.length > 30 then goTake s 27 ++ "..." else s

/-- Pointwise update of the column-width map (Go map assignment). -/
def mapUpd (m : String → Nat) (k : String) (v : Nat) : String → Nat :=
  fun k2 => if k2 = k then v else m k2

/-- First width pass: colWidths[col] = len(col) for each column. -/
def initWidths (columns : List String) : String → Nat :=
  columns.foldl (fun m col => mapUpd m col col.length) (fun _ => 0)

/-- Inner width pass for one row: enlarge colWidths[col] to the value's
string length where it exceeds the current width. -/
def widenRow (columns : List String) (row : String → Cell) (m : String → Nat) :
    String → Nat :=
  columns.foldl
    (fun m col =>
      let valueStr := valueToStr (row col)
      if valueStr.length > m col then mapUpd m col valueStr.length else m)
    m

/-- The colWidths map of executeQuery: name lengths enlarged by every
row's stringified values. -/
def computeColWidths (columns : List String) (results : List (String → Cell)) :
    String → Nat :=
  results.foldl (fun m row => widenRow columns row m) (initWidths columns)

/-- The two clamping ifs applied at every use of a column width:
raise to 8, then cap at 30. -/
def clampWidth (w : Nat) : Nat :=
  let w1 := if w < 8 then 8 else w
  if w1 > 30 then 30 else w1

/-- Header line body: each column name left-justified to its clamped
width, followed by one space. -/
def headerCells (columns : List String) (w : String → Nat) : String :=
  columns.foldl (fun acc col => acc ++ padRight col (clampWidth (w col)) ++ " ") ""

/-- Total width of the separator: clamped width plus one per column. -/
def totalWidth (columns : List String) (w : String → Nat) : Nat :=
  columns.foldl (fun tot col => tot + (clampWidth (w col) + 1)) 0

/-- Separator line body: totalWidth dashes. -/
def sepCells (columns : List String) (w : String → Nat) : String :=
  String.mk (List.replicate (totalWidth columns w) '-')

/-- One data line body: each cell value (NULL / truncated string form)
left-justified to the clamped width, followed by one space. -/
def rowCells (columns : List String) (w : String → Nat) (row : String → Cell) :
    String :=
  columns.foldl
    (fun acc col => acc ++ padRight (truncateVal (row col)) (clampWidth (w col)) ++ " ")
    ""

/-- All data lines, each terminated by a newline. -/
def bodyLines (columns : List String) (w : String → Nat)
    (results : List (String → Cell)) : String :=
  results.foldl (fun acc row => acc ++ rowCells columns w row ++ "\n") ""

/-- The text built by executeQuery from a result set: the count line,
then either header + separator + data rows, or the no-rows sentinel. -/
def formatResults (columns : List String) (results : List (String → Cell)) :
    String :=
  let base := "查询结果 (" ++ natToStr results.length ++ " 行):\n\n"
  if results.length > 0 then
    let w := computeColWidths columns results
    base ++ headerCells columns w ++ "\n" ++ sepCells columns w ++ "\n" ++
      bodyLines columns w results
  else
    base ++ noRowsMsg ++ "\n"

/-- The query safety check of executeQuery, in positive form: trim
whitespace, uppercase, and test the four allowed statement keywords. -/
def allowQuery (query : String) : Bool :=
  let upperQuery := goToUpper (goTrimSpace query)
  goStartsWith upperQuery "SELECT" || goStartsWith upperQuery "SHOW" ||
    goStartsWith upperQuery "DESCRIBE" || goStartsWith upperQuery "DESC"

/-- executeQuery: reject non-allow-listed statements without touching the
database; otherwise run the query, build the row maps and render them. -/
def executeQuery (s : Server) (id : GoVal) (query : String) :
    MCPResponse × List IssuedStmt :=
  let upperQuery := goToUpper (goTrimSpace query)
  if !goStartsWith upperQuery "SELECT" && !goStartsWith upperQuery "SHOW" &&
      !goStartsWith upperQuery "DESCRIBE" && !goStartsWith upperQuery "DESC" then
    (errorResponse id gateMsg, [])
  else
    match s.db query with
    | Except.error e => (errorResponse id ("查询错误: " ++ e), [⟨query, true⟩])
    | Except.ok res =>
      let results := res.rows.map (buildRow res.columns)
      (⟨"2.0", id, some (RpcResult.content (formatResults res.columns results)), none⟩,
        [⟨query, true⟩])

/-- queryTable: build SELECT * FROM backquoted table, optional WHERE for a
non-empty string where_clause, LIMIT from a numeric limit argument
(default 10), and hand the statement to executeQuery. -/
def queryTable (s : Server) (id : GoVal) (args : List (String × GoVal)) :
    MCPResponse × List IssuedStmt :=
  match mapGet args "table_name" with
  | some (GoVal.str tableName) =>
    let limit : Int :=
      match mapGet args "limit" with
      | some (GoVal.num n) => n
      | _ => 10
    let query := "SELECT * FROM `" ++ tableName ++ "`"
    let query :=
      match mapGet args "where_clause" with
      | some (GoVal.str whereClause) =>
        if whereClause ≠ "" then query ++ " WHERE " ++ whereClause else query
      | _ => query
    let query := query ++ " LIMIT " ++ intToStr limit
    executeQuery s id query
  | _ => (errorResponse id "table_name is required", [])

/-- listTables: run SHOW TABLES directly on the database handle and list
the scanned table names. -/
def listTables (s : Server) (id : GoVal) : MCPResponse × List IssuedStmt :=
  match s.db "SHOW TABLES" with
  | Except.error e =>
    (errorResponse id ("Database error: " ++ e), [⟨"SHOW TABLES", false⟩])
  | Except.ok res =>
    let tables := res.rows.filterMap
      (fun row => match row with
        | [some tableName] => some tableName
        | _ => none)
    (⟨"2.0", id,
      some (RpcResult.content
        ("数据库 \x27" ++ s.dbName ++ "\x27 中的表: " ++ String.intercalate ", " tables)),
      none⟩,
      [⟨"SHOW TABLES", false⟩])

/-- describeTable: run DESCRIBE on the table directly on the database
handle and render the fixed-width structure listing. -/
def describeTable (s : Server) (id : GoVal) (tableName : String) :
    MCPResponse × List IssuedStmt :=
  match s.db ("DESCRIBE " ++ tableName) with
  | Except.error e =>
    (errorResponse id ("Database error: " ++ e), [⟨"DESCRIBE " ++ tableName, false⟩])
  | Except.ok res =>
    let text := "表 \x27" ++ tableName ++ "\x27 的结构:\n\n" ++
      padRight "字段名" 20 ++ " " ++ padRight "数据类型" 20 ++ " " ++
      padRight "是否为空" 10 ++ " " ++ padRight "键" 10 ++ " " ++
      padRight "默认值" 15 ++ " " ++ padRight "额外信息" 10 ++ "\n" ++
      String.mk (List.replicate 90 '-') ++ "\n"
    let text := res.rows.foldl
      (fun acc row =>
        match row with
        | [some field, some dataType, some nullCol, some key, dv, ex] =>
          let defaultStr := match dv with | none => "NULL" | some v => v
          let extraStr := match ex with | none => "" | some v => v
          acc ++ padRight field 20 ++ " " ++ padRight dataType 20 ++ " " ++
            padRight nullCol 10 ++ " " ++ padRight key 10 ++ " " ++
            padRight defaultStr 15 ++ " " ++ padRight extraStr 10 ++ "\n"
        | _ => acc)
      text
    (⟨"2.0", id, some (RpcResult.content text), none⟩,
      [⟨"DESCRIBE " ++ tableName, false⟩])

/-- showTableIndexes: run SHOW INDEX FROM on the table directly on the
database handle and render the fixed-width index listing. -/
def showTableIndexes (s : Server) (id : GoVal) (tableName : String) :
    MCPResponse × List IssuedStmt :=
  match s.db ("SHOW INDEX FROM " ++ tableName) with
  | Except.error e =>
    (errorResponse id ("Database error: " ++ e),
      [⟨"SHOW INDEX FROM " ++ tableName, false⟩])
  | Except.ok res =>
    let text := "表 \x27" ++ tableName ++ "\x27 的索引信息:\n\n" ++
      padRight "索引名" 20 ++ " " ++ padRight "列名" 15 ++ " " ++
      padRight "是否唯一" 15 ++ " " ++ padRight "索引类型" 15 ++ " " ++
      padRight "序列" 10 ++ "\n" ++
      String.mk (List.replicate 80 '-') ++ "\n"
    let text := res.rows.foldl
      (fun acc row =>
        match row with
        | [some _table, some nonUnique, some keyName, some seqInIndex,
            some columnName, _, _, _, _, _, indexType, _, _] =>
          let unique := if nonUnique = "0" then "是" else "否"
          let indexTypeStr := match indexType with | none => "" | some v => v
          acc ++ padRight keyName 20 ++ " " ++ padRight columnName 15 ++ " " ++
            padRight unique 15 ++ " " ++ padRight indexTypeStr 15 ++ " " ++
            padRight seqInIndex 10 ++ "\n"
        | _ => acc)
      text
    (⟨"2.0", id, some (RpcResult.content text), none⟩,
      [⟨"SHOW INDEX FROM " ++ tableName, false⟩])

/-- The static tool catalog returned by tools/list. -/
def toolsCatalog : List Tool :=
  [⟨"list_tables", "列出数据库中的所有表", ⟨"object", [], []⟩⟩,
   ⟨"describe_table", "获取指定表的结构信息",
     ⟨"object", [("table_name", ⟨"string", "表名"⟩)], ["table_name"]⟩⟩,
   ⟨"query_table", "查询表数据",
     ⟨"object",
       [("table_name", ⟨"string", "表名"⟩),
        ("limit", ⟨"integer", "限制返回行数，默认10"⟩),
        ("where_clause", ⟨"string", "WHERE条件子句（可选）"⟩)],
       ["table_name"]⟩⟩,
   ⟨"execute_query", "执行自定义SQL查询（仅SELECT语句）",
     ⟨"object", [("query", ⟨"string", "SQL查询语句"⟩)], ["query"]⟩⟩,
   ⟨"show_table_indexes", "显示表的索引信息",
     ⟨"object", [("table_name", ⟨"string", "表名"⟩)], ["table_name"]⟩⟩]

/-- handleToolCall: parse the params, then dispatch on the tool name with
the per-tool required-argument checks. -/
def handleToolCall (s : Server) (req : MCPRequest) : MCPResponse × List IssuedStmt :=
  match req.params with
  | RawParams.absent => (⟨"2.0", req.id, none, some ⟨-32602, "Invalid params"⟩⟩, [])
  | RawParams.malformed => (⟨"2.0", req.id, none, some ⟨-32602, "Invalid params"⟩⟩, [])
  | RawParams.wellFormed name args =>
    if name = "list_tables" then listTables s req.id
    else if name = "describe_table" then
      match mapGet args "table_name" with
      | some (GoVal.str tableName) => describeTable s req.id tableName
      | _ => (errorResponse req.id "table_name is required", [])
    else if name = "query_table" then queryTable s req.id args
    else if name = "execute_query" then
      match mapGet args "query" with
      | some (GoVal.str query) => executeQuery s req.id query
      | _ => (errorResponse req.id "query is required", [])
    else if name = "show_table_indexes" then
      match mapGet args "table_name" with
      | some (GoVal.str tableName) => showTableIndexes s req.id tableName
      | _ => (errorResponse req.id "table_name is required", [])
    else (errorResponse req.id "Unknown tool", [])

/-- The fixed initialize result payload. -/
def initializePayload : GoVal :=
  GoVal.obj
    [("protocolVersion", GoVal.str "2024-11-05"),
     ("capabilities", GoVal.obj [("tools", GoVal.obj [])]),
     ("serverInfo", GoVal.obj
       [("name", GoVal.str "mysql-mcp-server"), ("version", GoVal.str "1.0.0")])]

/-- handleRequest: route by method name. -/
def handleRequest (s : Server) (req : MCPRequest) : MCPResponse × List IssuedStmt :=
  if req.method = "initialize" then
    (⟨"2.0", req.id, some (RpcResult.payload initializePayload), none⟩, [])
  else if req.method = "tools/list" then
    (⟨"2.0", req.id, some (RpcResult.toolsList toolsCatalog), none⟩, [])
  else if req.method = "tools/call" then handleToolCall s req
  else (⟨"2.0", req.id, none, some ⟨-32601, "Method not found"⟩⟩, [])

/-- One unit read from the input stream: a decoded request, or a decode
error carrying its message (the clean end of stream surfaces as the
error message "EOF"). -/
inductive DecodeItem where
  | ok (req : MCPRequest)
  | fail (msg : String)

/-- The session loop of run(): per unit, break on the "EOF" decode error,
log and continue on any other decode error, else handle the request and
emit its response.  Returns the emitted responses and the log lines. -/
def runLoop (s : Server) : List DecodeItem → List MCPResponse × List String
  | [] => ([], [])
  | DecodeItem.ok req :: rest =>
    let response := (handleRequest s req).1
    let tail := runLoop s rest
    (response :: tail.1, tail.2)
  | DecodeItem.fail msg :: rest =>
    if msg = "EOF" then ([], [])
    else
      let tail := runLoop s rest
      (tail.1, ("解码请求错误: " ++ msg) :: tail.2)

example (a b c : String) : a ++ b ++ c = a ++ (b ++ c) := String.append_assoc a b c

lemma strAppend_mk (a b : String) : a ++ b = String.mk (a.data ++ b.data) := by
  rcases a with ⟨la⟩; rcases b with ⟨lb⟩; rfl

lemma gateCond_iff (q : String) :
    (!goStartsWith (goToUpper (goTrimSpace q)) "SELECT" &&
     !goStartsWith (goToUpper (goTrimSpace q)) "SHOW" &&
     !goStartsWith (goToUpper (goTrimSpace q)) "DESCRIBE" &&
     !goStartsWith (goToUpper (goTrimSpace q)) "DESC") = !allowQuery q := by
  unfold allowQuery
  cases h1 : goStartsWith (goToUpper (goTrimSpace q)) "SELECT" <;>
    cases h2 : goStartsWith (goToUpper (goTrimSpace q)) "SHOW" <;>
    cases h3 : goStartsWith (goToUpper (goTrimSpace q)) "DESCRIBE" <;>
    cases h4 : goStartsWith (goToUpper (goTrimSpace q)) "DESC" <;>
    simp [h1, h2, h3, h4]

lemma executeQuery_eq (s : Server) (id : GoVal) (q : String) :
    executeQuery s id q =
      if allowQuery q then
        match s.db q with
        | Except.error e => (errorResponse id ("查询错误: " ++ e), [⟨q, true⟩])
        | Except.ok res =>
          (⟨"2.0", id, some (RpcResult.content
              (formatResults res.columns (res.rows.map (buildRow res.columns)))), none⟩,
            [⟨q, true⟩])
      else (errorResponse id gateMsg, []) := by
  unfold executeQuery
  dsimp only
  rw [gateCond_iff]
  cases h : allowQuery q <;> simp [h]

lemma dropWhile_append_of_ne_nil {p : Char → Bool} {a : List Char} (b : List Char)
    (h : a.dropWhile p ≠ []) :
    (a ++ b).dropWhile p = a.dropWhile p ++ b := by
  rw [List.dropWhile_append, if_neg]
  simpa using h

lemma goTrimSpace_front (p r : List Char)
    (hp1 : p.dropWhile goIsSpace = p)
    (hp2 : p.reverse.dropWhile goIsSpace = p.reverse)
    (hpne : p ≠ []) :
    ∃ t, (goTrimSpace (String.mk (p ++ r))).data = p ++ t := by
  unfold goTrimSpace
  have hstep1 : (p ++ r).dropWhile goIsSpace = p ++ r := by
    rw [dropWhile_append_of_ne_nil _ (by rw [hp1]; exact hpne), hp1]
  simp only [hstep1]
  rw [List.reverse_append, List.dropWhile_append]
  split
  · refine ⟨[], ?_⟩
    rw [hp2]
    simp
  · refine ⟨((r.reverse.dropWhile goIsSpace).reverse), ?_⟩
    simp

lemma allowQuery_of_front (kw : String) (p r : List Char)
    (hp1 : p.dropWhile goIsSpace = p)
    (hp2 : p.reverse.dropWhile goIsSpace = p.reverse)
    (hpne : p ≠ [])
    (hup : p.map Char.toUpper = p)
    (hkw : kw.data <+: p)
    (hmem : kw = "SELECT" ∨ kw = "SHOW" ∨ kw = "DESCRIBE" ∨ kw = "DESC") :
    allowQuery (String.mk (p ++ r)) = true := by
  obtain ⟨t, ht⟩ := goTrimSpace_front p r hp1 hp2 hpne
  have hpre : kw.data <+: ((goTrimSpace (String.mk (p ++ r))).data.map Char.toUpper) := by
    rw [ht, List.map_append, hup]
    exact hkw.trans (List.prefix_append _ _)
  have hbit : goStartsWith (goToUpper (goTrimSpace (String.mk (p ++ r)))) kw = true := by
    unfold goStartsWith goToUpper
    exact List.isPrefixOf_iff_prefix.mpr hpre
  unfold allowQuery
  rcases hmem with h | h | h | h <;> subst h <;> simp [hbit]

lemma allowQuery_select_front (r : String) : allowQuery ("SELECT" ++ r) = true := by
  rw [strAppend_mk]
  exact allowQuery_of_front "SELECT" "SELECT".data r.data (by decide) (by decide)
    (by decide) (by decide) (List.prefix_refl _) (Or.inl rfl)

lemma allowQuery_describe_front (t : String) : allowQuery ("DESCRIBE " ++ t) = true := by
  have h : "DESCRIBE " ++ t = String.mk ("DESCRIBE".data ++ (' ' :: t.data)) := by
    rcases t with ⟨lt⟩; rfl
  rw [h]
  exact allowQuery_of_front "DESCRIBE" "DESCRIBE".data (' ' :: t.data) (by decide)
    (by decide) (by decide) (by decide) (List.prefix_refl _) (Or.inr (Or.inr (Or.inl rfl)))

lemma allowQuery_showIndex_front (t : String) :
    allowQuery ("SHOW INDEX FROM " ++ t) = true := by
  have h : "SHOW INDEX FROM " ++ t =
      String.mk ("SHOW".data ++ (" INDEX FROM ".data ++ t.data)) := by
    rcases t with ⟨lt⟩; rfl
  rw [h]
  exact allowQuery_of_front "SHOW" "SHOW".data (" INDEX FROM ".data ++ t.data) (by decide)
    (by decide) (by decide) (by decide) (List.prefix_refl _) (Or.inr (Or.inl rfl))

/-- A concrete server whose database returns an empty result set for
every statement; used to instantiate universally quantified theorems. -/
def sampleServer : Server := ⟨fun _ => Except.ok ⟨[], []⟩, "mcp_test"⟩

lemma errorResponse_id (id : GoVal) (m : String) : (errorResponse id m).id = id := rfl

lemma listTables_id (s : Server) (id : GoVal) : (listTables s id).1.id = id := by
  unfold listTables
  split <;> rfl

lemma describeTable_id (s : Server) (id : GoVal) (t : String) :
    (describeTable s id t).1.id = id := by
  unfold describeTable
  split <;> rfl

lemma showTableIndexes_id (s : Server) (id : GoVal) (t : String) :
    (showTableIndexes s id t).1.id = id := by
  unfold showTableIndexes
  split <;> rfl

lemma executeQuery_id (s : Server) (id : GoVal) (q : String) :
    (executeQuery s id q).1.id = id := by
  rw [executeQuery_eq]
  split
  · split <;> rfl
  · rfl

lemma queryTable_id (s : Server) (id : GoVal) (args : List (String × GoVal)) :
    (queryTable s id args).1.id = id := by
  unfold queryTable
  split
  · exact executeQuery_id ..
  · rfl

lemma handleToolCall_id (s : Server) (req : MCPRequest) :
    (handleToolCall s req).1.id = req.id := by
  unfold handleToolCall
  split
  · rfl
  · rfl
  · split
    · exact listTables_id ..
    · split
      · split
        · exact describeTable_id ..
        · rfl
      · split
        · exact queryTable_id ..
        · split
          · split
            · exact executeQuery_id ..
            · rfl
          · split
            · split
              · exact showTableIndexes_id ..
              · rfl
            · rfl

lemma handleRequest_id (s : Server) (req : MCPRequest) :
    (handleRequest s req).1.id = req.id := by
  unfold handleRequest
  split
  · rfl
  · split
    · rfl
    · split
      · exact handleToolCall_id ..
      · rfl

lemma errorResponse_code (id : GoVal) (m : String) (e : MCPError)
    (h : (errorResponse id m).error = some e) : e.code = -32603 := by
  injection h with h2
  rw [← h2]

lemma errorResponse_message (id : GoVal) (m : String) (e : MCPError)
    (h : (errorResponse id m).error = some e) : e.message = m := by
  injection h with h2
  rw [← h2]

lemma ne_of_head (a b : String) (ca cb : Char) (hca : a.data.head? = some ca)
    (hcb : b.data.head? = some cb) (hne : ca ≠ cb) : a ≠ b := by
  intro h
  rw [h, hcb] at hca
  exact hne (Option.some.inj hca).symm

lemma ne_gateMsg_of_queryErr (m : String) : ("查询错误: " ++ m) ≠ gateMsg := by
  refine ne_of_head _ _ '查' '只' ?_ (by decide) (by decide)
  rw [String.data_append]
  rw [show "查询错误: ".data = '查' :: "询错误: ".data from rfl]
  rfl

lemma executeQuery_error_allowed (s : Server) (id : GoVal) (q : String) (e : MCPError)
    (hq : allowQuery q = true)
    (h : (executeQuery s id q).1.error = some e) :
    ∃ m, e.message = "查询错误: " ++ m := by
  rw [executeQuery_eq] at h
  simp only [hq, if_true] at h
  split at h
  · exact ⟨_, errorResponse_message _ _ _ h⟩
  · exact Option.noConfusion h

def isEOF (i : DecodeItem) : Bool :=
  match i with
  | DecodeItem.fail msg => msg = "EOF"
  | _ => false

lemma runLoop_responses (s : Server) (items : List DecodeItem) :
    (runLoop s items).1 =
      (items.takeWhile (fun i => !isEOF i)).filterMap
        (fun i => match i with
          | DecodeItem.ok r => some (handleRequest s r).1
          | _ => none) := by
  induction items with
  | nil => rfl
  | cons i rest ih =>
    cases i with
    | ok req =>
      simp [runLoop, isEOF, List.takeWhile_cons, List.filterMap_cons, ih]
    | fail msg =>
      by_cases h : msg = "EOF"
      · subst h
        simp [runLoop, isEOF, List.takeWhile_cons]
      · simp [runLoop, isEOF, List.takeWhile_cons, List.filterMap_cons, h, ih]

lemma matchStrArg_none {α : Type} (o : Option GoVal) (f : String → α) (y : α)
    (h : ∀ t, o ≠ some (GoVal.str t)) :
    (match o with
     | some (GoVal.str t) => f t
     | _ => y) = y := by
  cases o with
  | none => rfl
  | some v => cases v <;> first | rfl | exact absurd rfl (h _)

/-- C1: the Query Safety Gate accepts a query exactly when its
whitespace-trimmed, uppercased form starts with SELECT, SHOW, DESCRIBE or
DESC; it accepts the three sample queries and rejects the three sample
statements; a rejected query produces the fixed rejection message and no
statement is handed to the database, while an accepted query is handed
to the database verbatim. -/
theorem c1_query_safety_gate :
    (∀ q : String, allowQuery q = true ↔
      (goStartsWith (goToUpper (goTrimSpace q)) "SELECT" = true ∨
       goStartsWith (goToUpper (goTrimSpace q)) "SHOW" = true ∨
       goStartsWith (goToUpper (goTrimSpace q)) "DESCRIBE" = true ∨
       goStartsWith (goToUpper (goTrimSpace q)) "DESC" = true))
    ∧ allowQuery "select * from users" = true
    ∧ allowQuery "  SHOW TABLES" = true
    ∧ allowQuery "DESCRIBE orders" = true
    ∧ allowQuery "DELETE FROM users" = false
    ∧ allowQuery "DROP TABLE users" = false
    ∧ allowQuery "" = false
    ∧ (∀ (s : Server) (id : GoVal) (q : String), allowQuery q = false →
        executeQuery s id q = (errorResponse id gateMsg, []))
    ∧ (∀ (s : Server) (id : GoVal) (q : String), allowQuery q = true →
        (executeQuery s id q).2 = [⟨q, true⟩]) := by
  refine ⟨?_, by decide, by decide, by decide, by decide, by decide, by decide, ?_, ?_⟩
  · intro q
    unfold allowQuery
    simp [Bool.or_eq_true, or_assoc]
  · intro s id q h
    rw [executeQuery_eq]
    simp [h]
  · intro s id q h
    rw [executeQuery_eq]
    simp only [h, if_true]
    split <;> rfl

/-- C1 witness: the gate theorem applied at DROP TABLE users. -/
theorem c1_query_safety_gate_witness :
    executeQuery sampleServer GoVal.null "DROP TABLE users" =
      (errorResponse GoVal.null gateMsg, []) :=
  c1_query_safety_gate.2.2.2.2.2.2.2.1 sampleServer GoVal.null "DROP TABLE users" (by decide)

/-- C3: for every request, success or error, the response id field is
identical to the request id field (a missing or null JSON id decodes to
the null value, which is echoed the same way). -/
theorem c3_response_id_echo (s : Server) (req : MCPRequest) :
    ((handleRequest s req).1).id = req.id :=
  handleRequest_id s req

/-- C3 witness: the id-echo theorem at a concrete request with null id. -/
theorem c3_response_id_echo_witness :
    ((handleRequest sampleServer ⟨"2.0", GoVal.null, "tools/call", RawParams.absent⟩).1).id =
      GoVal.null :=
  c3_response_id_echo sampleServer ⟨"2.0", GoVal.null, "tools/call", RawParams.absent⟩

/-- C8: the session loop skips a malformed unit that is not the clean
end-of-stream EOF error, logs it, and continues with the rest of the
stream; it terminates normally exactly at the clean end of stream, and the
responses it emits are exactly those of the requests decoded before it. -/
theorem c8_session_loop_behavior :
    (∀ (s : Server) (msg : String) (rest : List DecodeItem), msg ≠ "EOF" →
      runLoop s (DecodeItem.fail msg :: rest) =
        ((runLoop s rest).1, ("解码请求错误: " ++ msg) :: (runLoop s rest).2))
    ∧ (∀ (s : Server) (rest : List DecodeItem),
        runLoop s (DecodeItem.fail "EOF" :: rest) = ([], []))
    ∧ (∀ (s : Server) (items : List DecodeItem),
        (runLoop s items).1 =
          (items.takeWhile (fun i => !isEOF i)).filterMap
            (fun i => match i with
              | DecodeItem.ok r => some (handleRequest s r).1
              | _ => none)) := by
  refine ⟨?_, ?_, runLoop_responses⟩
  · intro s msg rest h
    simp [runLoop, h]
  · intro s rest
    simp [runLoop]

/-- C8 witness: a malformed non-EOF unit is logged and skipped. -/
theorem c8_session_loop_behavior_witness :
    runLoop sampleServer [DecodeItem.fail "bad json"] =
      ([], ["解码请求错误: bad json"]) :=
  c8_session_loop_behavior.1 sampleServer "bad json" [] (by decide)

/-- C7: each tool with a required argument answers a missing or
non-string required argument with the -32603 error envelope carrying the
request id and a message naming the field, with no database statement
issued, and the session loop goes on to process subsequent requests. -/
theorem c7_missing_required_argument :
    ∀ (s : Server) (id : GoVal) (args : List (String × GoVal)),
      (∀ t, mapGet args "table_name" ≠ some (GoVal.str t)) →
      (∀ t, mapGet args "query" ≠ some (GoVal.str t)) →
      (handleToolCall s ⟨"2.0", id, "tools/call", RawParams.wellFormed "describe_table" args⟩ =
          (errorResponse id "table_name is required", []))
      ∧ (handleToolCall s ⟨"2.0", id, "tools/call", RawParams.wellFormed "query_table" args⟩ =
          (errorResponse id "table_name is required", []))
      ∧ (handleToolCall s ⟨"2.0", id, "tools/call", RawParams.wellFormed "show_table_indexes" args⟩ =
          (errorResponse id "table_name is required", []))
      ∧ (handleToolCall s ⟨"2.0", id, "tools/call", RawParams.wellFormed "execute_query" args⟩ =
          (errorResponse id "query is required", []))
      ∧ (∀ (req : MCPRequest) (rest : List DecodeItem),
          runLoop s (DecodeItem.ok req :: rest) =
            ((handleRequest s req).1 :: (runLoop s rest).1, (runLoop s rest).2)) := by
  intro s id args h1 h2
  refine ⟨?_, ?_, ?_, ?_, fun req rest => rfl⟩
  · unfold handleToolCall
    simp only []
    cases hm : mapGet args "table_name" with
    | none => simp
    | some v =>
      cases v with
      | str t => exact absurd hm (h1 t)
      | null => simp
      | boolean b => simp
      | num n => simp
      | arr xs => simp
      | obj f => simp
  · unfold handleToolCall queryTable
    simp only []
    cases hm : mapGet args "table_name" with
    | none => simp
    | some v =>
      cases v with
      | str t => exact absurd hm (h1 t)
      | null => simp
      | boolean b => simp
      | num n => simp
      | arr xs => simp
      | obj f => simp
  · unfold handleToolCall
    simp only []
    cases hm : mapGet args "table_name" with
    | none => simp
    | some v =>
      cases v with
      | str t => exact absurd hm (h1 t)
      | null => simp
      | boolean b => simp
      | num n => simp
      | arr xs => simp
      | obj f => simp
  · unfold handleToolCall
    simp only []
    cases hm : mapGet args "query" with
    | none => simp
    | some v =>
      cases v with
      | str t => exact absurd hm (h2 t)
      | null => simp
      | boolean b => simp
      | num n => simp
      | arr xs => simp
      | obj f => simp

/-- C7 witness: describe_table with empty arguments. -/
theorem c7_missing_required_argument_witness :
    handleToolCall sampleServer
        ⟨"2.0", GoVal.null, "tools/call", RawParams.wellFormed "describe_table" []⟩ =
      (errorResponse GoVal.null "table_name is required", []) :=
  (c7_missing_required_argument sampleServer GoVal.null []
    (fun _t h => Option.noConfusion h) (fun _t h => Option.noConfusion h)).1

lemma executeQuery_trace_allowed (s : Server) (id : GoVal) (q : String)
    (h : allowQuery q = true) :
    (executeQuery s id q).2 = [⟨q, true⟩] := by
  rw [executeQuery_eq]
  simp only [h, if_true]
  split <;> rfl

lemma executeQuery_trace_mem (s : Server) (id : GoVal) (q : String) (st : IssuedStmt)
    (h : st ∈ (executeQuery s id q).2) :
    st.sql = q ∧ st.gated = true ∧ allowQuery q = true := by
  rw [executeQuery_eq] at h
  by_cases hq : allowQuery q = true
  · simp only [hq, if_true] at h
    split at h <;> simp_all
  · rw [Bool.not_eq_true] at hq
    simp [hq] at h

lemma queryTable_eq_execute (s : Server) (id : GoVal) (args : List (String × GoVal))
    (tn : String) (h : mapGet args "table_name" = some (GoVal.str tn)) :
    queryTable s id args = executeQuery s id
      ((match mapGet args "where_clause" with
        | some (GoVal.str w) =>
          if w ≠ "" then "SELECT * FROM `" ++ tn ++ "`" ++ " WHERE " ++ w
          else "SELECT * FROM `" ++ tn ++ "`"
        | _ => "SELECT * FROM `" ++ tn ++ "`") ++ " LIMIT " ++
        intToStr (match mapGet args "limit" with
          | some (GoVal.num n) => n
          | _ => 10)) := by
  unfold queryTable
  rw [h]

/-- Modelled from the spec table row for query_table, as amended from the
source: SELECT * FROM the backquoted table name, a WHERE part exactly
when where_clause is supplied as a non-empty string, and a LIMIT part
from the numeric limit argument (default 10). -/
def queryTableSpecSQL (tn : String) (wc lim : Option GoVal) : String :=
  "SELECT * FROM `" ++ tn ++ "`" ++
    (match wc with
     | some (GoVal.str w) => if w = "" then "" else " WHERE " ++ w
     | _ => "") ++
    " LIMIT " ++
    (match lim with
     | some (GoVal.num n) => intToStr n
     | _ => intToStr 10)

lemma queryTable_codeSQL_eq_spec (tn : String) (wc lim : Option GoVal) :
    (match wc with
     | some (GoVal.str w) =>
       if w ≠ "" then "SELECT * FROM `" ++ tn ++ "`" ++ " WHERE " ++ w
       else "SELECT * FROM `" ++ tn ++ "`"
     | _ => "SELECT * FROM `" ++ tn ++ "`") ++ " LIMIT " ++
      intToStr (match lim with
        | some (GoVal.num n) => n
        | _ => 10) = queryTableSpecSQL tn wc lim := by
  have hlim : intToStr (match lim with
      | some (GoVal.num n) => n
      | _ => 10) = (match lim with
      | some (GoVal.num n) => intToStr n
      | _ => intToStr 10) := by
    cases lim with
    | none => rfl
    | some v => cases v <;> rfl
  unfold queryTableSpecSQL
  rw [hlim]
  cases wc with
  | none => simp
  | some v =>
    cases v with
    | str w =>
      dsimp only
      by_cases hw : w = ""
      · simp [hw]
      · rw [if_pos hw, if_neg hw]
        simp only [String.append_assoc]
    | null => simp
    | boolean b => simp
    | num n => simp
    | arr xs => simp
    | obj f => simp

lemma allowQuery_queryTableSpecSQL (tn : String) (wc lim : Option GoVal) :
    allowQuery (queryTableSpecSQL tn wc lim) = true := by
  unfold queryTableSpecSQL
  rw [show "SELECT * FROM `" = "SELECT" ++ " * FROM `" from rfl]
  simp only [String.append_assoc]
  exact allowQuery_select_front _

/-- C6 counterexample: with table_name "users" and where_clause supplied
as the empty string, the claim predicts the statement
"SELECT * FROM users WHERE  LIMIT 10" (no backquotes, and a WHERE part
because where_clause is supplied); the code instead issues
"SELECT * FROM `users` LIMIT 10" (backquoted table name, WHERE dropped
for the empty string). -/
theorem c6_sql_shape_counterexample :
    (queryTable sampleServer GoVal.null
        [("table_name", GoVal.str "users"), ("where_clause", GoVal.str "")]).2 =
      [⟨"SELECT * FROM `users` LIMIT 10", true⟩] ∧
    (queryTable sampleServer GoVal.null
        [("table_name", GoVal.str "users"), ("where_clause", GoVal.str "")]).2 ≠
      [⟨"SELECT * FROM users WHERE  LIMIT 10", true⟩] := by
  constructor
  · decide
  · decide

/-- C6 as amended: for a string table_name the statement handed to the
database is SELECT * FROM `table_name` (backquoted), followed by
WHERE where_clause exactly when where_clause is supplied as a non-empty
string, followed by LIMIT limit where limit is the supplied numeric
argument (truncated to an integer) and 10 otherwise. -/
theorem c6_query_table_sql (s : Server) (id : GoVal) (args : List (String × GoVal))
    (tn : String) (h : mapGet args "table_name" = some (GoVal.str tn)) :
    (queryTable s id args).2 =
      [⟨queryTableSpecSQL tn (mapGet args "where_clause") (mapGet args "limit"), true⟩] := by
  rw [queryTable_eq_execute s id args tn h, queryTable_codeSQL_eq_spec]
  exact executeQuery_trace_allowed _ _ _ (allowQuery_queryTableSpecSQL ..)

/-- C6 witness: the amended statement at table_name "users" with no
where_clause and no limit argument. -/
theorem c6_query_table_sql_witness :
    (queryTable sampleServer GoVal.null [("table_name", GoVal.str "users")]).2 =
      [⟨queryTableSpecSQL "users" none none, true⟩] :=
  c6_query_table_sql sampleServer GoVal.null [("table_name", GoVal.str "users")] "users" rfl

/-- C9: a query_table invocation can never trip the safety gate: with a
string table_name the constructed statement passes the gate and is issued
to the database, and no queryTable response ever carries the gate
rejection message. -/
theorem c9_query_table_gate_unreachable :
    (∀ (s : Server) (id : GoVal) (args : List (String × GoVal)) (tn : String),
      mapGet args "table_name" = some (GoVal.str tn) →
      ∃ q, (queryTable s id args).2 = [⟨q, true⟩] ∧ allowQuery q = true)
    ∧ (∀ (s : Server) (id : GoVal) (args : List (String × GoVal)) (e : MCPError),
        (queryTable s id args).1.error = some e → e.message ≠ gateMsg) := by
  constructor
  · intro s id args tn h
    refine ⟨queryTableSpecSQL tn (mapGet args "where_clause") (mapGet args "limit"), ?_, ?_⟩
    · rw [queryTable_eq_execute s id args tn h, queryTable_codeSQL_eq_spec]
      exact executeQuery_trace_allowed _ _ _ (allowQuery_queryTableSpecSQL ..)
    · exact allowQuery_queryTableSpecSQL ..
  · intro s id args e h
    cases hm : mapGet args "table_name" with
    | none =>
      unfold queryTable at h
      rw [hm] at h
      rw [errorResponse_message _ _ _ h]
      decide
    | some v =>
      cases v with
      | str tn =>
        rw [queryTable_eq_execute s id args tn hm, queryTable_codeSQL_eq_spec] at h
        obtain ⟨m, hmsg⟩ :=
          executeQuery_error_allowed _ _ _ _ (allowQuery_queryTableSpecSQL ..) h
        rw [hmsg]
        exact ne_gateMsg_of_queryErr m
      | null =>
        unfold queryTable at h
        rw [hm] at h
        rw [errorResponse_message _ _ _ h]
        decide
      | boolean b =>
        unfold queryTable at h
        rw [hm] at h
        rw [errorResponse_message _ _ _ h]
        decide
      | num n =>
        unfold queryTable at h
        rw [hm] at h
        rw [errorResponse_message _ _ _ h]
        decide
      | arr xs =>
        unfold queryTable at h
        rw [hm] at h
        rw [errorResponse_message _ _ _ h]
        decide
      | obj f =>
        unfold queryTable at h
        rw [hm] at h
        rw [errorResponse_message _ _ _ h]
        decide

/-- C9 witness: the gate-unreachability theorem at table_name "users". -/
theorem c9_query_table_gate_unreachable_witness :
    ∃ q, (queryTable sampleServer GoVal.null [("table_name", GoVal.str "users")]).2 =
        [⟨q, true⟩] ∧ allowQuery q = true :=
  c9_query_table_gate_unreachable.1 sampleServer GoVal.null
    [("table_name", GoVal.str "users")] "users" rfl

lemma listTables_trace (s : Server) (id : GoVal) :
    (listTables s id).2 = [⟨"SHOW TABLES", false⟩] := by
  unfold listTables
  split <;> rfl

lemma describeTable_trace (s : Server) (id : GoVal) (t : String) :
    (describeTable s id t).2 = [⟨"DESCRIBE " ++ t, false⟩] := by
  unfold describeTable
  split <;> rfl

lemma showTableIndexes_trace (s : Server) (id : GoVal) (t : String) :
    (showTableIndexes s id t).2 = [⟨"SHOW INDEX FROM " ++ t, false⟩] := by
  unfold showTableIndexes
  split <;> rfl

lemma queryTable_trace_mem (s : Server) (id : GoVal) (args : List (String × GoVal))
    (st : IssuedStmt) (h : st ∈ (queryTable s id args).2) :
    allowQuery st.sql = true := by
  cases hm : mapGet args "table_name" with
  | none =>
    unfold queryTable at h
    rw [hm] at h
    simp at h
  | some v =>
    cases v with
    | str tn =>
      rw [queryTable_eq_execute s id args tn hm, queryTable_codeSQL_eq_spec] at h
      obtain ⟨hsql, _, hq⟩ := executeQuery_trace_mem _ _ _ _ h
      rw [hsql]
      exact hq
    | null => unfold queryTable at h; rw [hm] at h; simp at h
    | boolean b => unfold queryTable at h; rw [hm] at h; simp at h
    | num n => unfold queryTable at h; rw [hm] at h; simp at h
    | arr xs => unfold queryTable at h; rw [hm] at h; simp at h
    | obj f => unfold queryTable at h; rw [hm] at h; simp at h

/-- C2 counterexample: a describe_table call issues its DESCRIBE
statement directly on the database handle without evaluating the safety
gate check; the statement in the trace is marked as not gate-checked. -/
theorem c2_gate_bypass_counterexample :
    ¬ (∀ st ∈ (handleRequest sampleServer
        ⟨"2.0", GoVal.null, "tools/call",
          RawParams.wellFormed "describe_table" [("table_name", GoVal.str "users")]⟩).2,
        st.gated = true) := by
  intro h
  exact absurd (h ⟨"DESCRIBE users", false⟩ (by decide)) (by decide)

/-- C2 as amended: every statement the server hands to the database in
response to a tools/call request does satisfy the gate allow-list
predicate (trimmed and uppercased it starts with SELECT, SHOW, DESCRIBE
or DESC), but only execute_query and query_table actually route their
statement through the gate check in executeQuery; list_tables,
describe_table and show_table_indexes issue their statements without
evaluating the gate. -/
theorem c2_issued_statements_allowed (s : Server) (req : MCPRequest)
    (hm : req.method = "tools/call") :
    ∀ st ∈ (handleRequest s req).2, allowQuery st.sql = true := by
  intro st hst
  unfold handleRequest at hst
  rw [hm] at hst
  simp only [String.reduceEq, reduceIte] at hst
  unfold handleToolCall at hst
  cases hp : req.params with
  | absent => rw [hp] at hst; simp at hst
  | malformed => rw [hp] at hst; simp at hst
  | wellFormed name args =>
    rw [hp] at hst
    dsimp only at hst
    by_cases h1 : name = "list_tables"
    · rw [if_pos h1, listTables_trace] at hst
      simp at hst
      rw [hst]
      decide
    · rw [if_neg h1] at hst
      by_cases h2 : name = "describe_table"
      · rw [if_pos h2] at hst
        cases ha : mapGet args "table_name" with
        | none => rw [ha] at hst; simp at hst
        | some v =>
          rw [ha] at hst
          cases v with
          | str t =>
            rw [describeTable_trace] at hst
            simp at hst
            rw [hst]
            exact allowQuery_describe_front t
          | null => simp at hst
          | boolean b => simp at hst
          | num n => simp at hst
          | arr xs => simp at hst
          | obj f => simp at hst
      · rw [if_neg h2] at hst
        by_cases h3 : name = "query_table"
        · rw [if_pos h3] at hst
          exact queryTable_trace_mem s req.id args st hst
        · rw [if_neg h3] at hst
          by_cases h4 : name = "execute_query"
          · rw [if_pos h4] at hst
            cases ha : mapGet args "query" with
            | none => rw [ha] at hst; simp at hst
            | some v =>
              rw [ha] at hst
              cases v with
              | str q =>
                obtain ⟨hsql, _, hq⟩ := executeQuery_trace_mem _ _ _ _ hst
                rw [hsql]
                exact hq
              | null => simp at hst
              | boolean b => simp at hst
              | num n => simp at hst
              | arr xs => simp at hst
              | obj f => simp at hst
          · rw [if_neg h4] at hst
            by_cases h5 : name = "show_table_indexes"
            · rw [if_pos h5] at hst
              cases ha : mapGet args "table_name" with
              | none => rw [ha] at hst; simp at hst
              | some v =>
                rw [ha] at hst
                cases v with
                | str t =>
                  rw [showTableIndexes_trace] at hst
                  simp at hst
                  rw [hst]
                  exact allowQuery_showIndex_front t
                | null => simp at hst
                | boolean b => simp at hst
                | num n => simp at hst
                | arr xs => simp at hst
                | obj f => simp at hst
            · rw [if_neg h5] at hst
              simp at hst

/-- C2 witness: the amended theorem applied to the ungated DESCRIBE
statement issued by describe_table. -/
theorem c2_issued_statements_allowed_witness :
    allowQuery "DESCRIBE users" = true :=
  c2_issued_statements_allowed sampleServer
    ⟨"2.0", GoVal.null, "tools/call",
      RawParams.wellFormed "describe_table" [("table_name", GoVal.str "users")]⟩
    rfl ⟨"DESCRIBE users", false⟩ (by decide)

/-- A server whose database fails every statement. -/
def failServer : Server := ⟨fun _ => Except.error "boom", "mcp_test"⟩

lemma listTables_code (s : Server) (id : GoVal) (e : MCPError)
    (h : (listTables s id).1.error = some e) : e.code = -32603 := by
  unfold listTables at h
  split at h
  · exact errorResponse_code _ _ _ h
  · exact Option.noConfusion h

lemma describeTable_code (s : Server) (id : GoVal) (t : String) (e : MCPError)
    (h : (describeTable s id t).1.error = some e) : e.code = -32603 := by
  unfold describeTable at h
  split at h
  · exact errorResponse_code _ _ _ h
  · exact Option.noConfusion h

lemma showTableIndexes_code (s : Server) (id : GoVal) (t : String) (e : MCPError)
    (h : (showTableIndexes s id t).1.error = some e) : e.code = -32603 := by
  unfold showTableIndexes at h
  split at h
  · exact errorResponse_code _ _ _ h
  · exact Option.noConfusion h

lemma executeQuery_code (s : Server) (id : GoVal) (q : String) (e : MCPError)
    (h : (executeQuery s id q).1.error = some e) : e.code = -32603 := by
  rw [executeQuery_eq] at h
  split at h
  · split at h
    · exact errorResponse_code _ _ _ h
    · exact Option.noConfusion h
  · exact errorResponse_code _ _ _ h

lemma queryTable_code (s : Server) (id : GoVal) (args : List (String × GoVal)) (e : MCPError)
    (h : (queryTable s id args).1.error = some e) : e.code = -32603 := by
  cases hm : mapGet args "table_name" with
  | none =>
    unfold queryTable at h
    rw [hm] at h
    exact errorResponse_code _ _ _ h
  | some v =>
    cases v with
    | str tn =>
      rw [queryTable_eq_execute s id args tn hm] at h
      exact executeQuery_code _ _ _ _ h
    | null => unfold queryTable at h; rw [hm] at h; exact errorResponse_code _ _ _ h
    | boolean b => unfold queryTable at h; rw [hm] at h; exact errorResponse_code _ _ _ h
    | num n => unfold queryTable at h; rw [hm] at h; exact errorResponse_code _ _ _ h
    | arr xs => unfold queryTable at h; rw [hm] at h; exact errorResponse_code _ _ _ h
    | obj f => unfold queryTable at h; rw [hm] at h; exact errorResponse_code _ _ _ h

lemma handleToolCall_wf_code (s : Server) (req : MCPRequest) (name : String)
    (args : List (String × GoVal)) (e : MCPError)
    (hp : req.params = RawParams.wellFormed name args)
    (h : (handleToolCall s req).1.error = some e) : e.code = -32603 := by
  unfold handleToolCall at h
  rw [hp] at h
  dsimp only at h
  by_cases h1 : name = "list_tables"
  · rw [if_pos h1] at h
    exact listTables_code _ _ _ h
  · rw [if_neg h1] at h
    by_cases h2 : name = "describe_table"
    · rw [if_pos h2] at h
      cases ha : mapGet args "table_name" with
      | none => rw [ha] at h; exact errorResponse_code _ _ _ h
      | some v =>
        rw [ha] at h
        cases v with
        | str t => exact describeTable_code _ _ _ _ h
        | null => exact errorResponse_code _ _ _ h
        | boolean b => exact errorResponse_code _ _ _ h
        | num n => exact errorResponse_code _ _ _ h
        | arr xs => exact errorResponse_code _ _ _ h
        | obj f => exact errorResponse_code _ _ _ h
    · rw [if_neg h2] at h
      by_cases h3 : name = "query_table"
      · rw [if_pos h3] at h
        exact queryTable_code _ _ _ _ h
      · rw [if_neg h3] at h
        by_cases h4 : name = "execute_query"
        · rw [if_pos h4] at h
          cases ha : mapGet args "query" with
          | none => rw [ha] at h; exact errorResponse_code _ _ _ h
          | some v =>
            rw [ha] at h
            cases v with
            | str q => exact executeQuery_code _ _ _ _ h
            | null => exact errorResponse_code _ _ _ h
            | boolean b => exact errorResponse_code _ _ _ h
            | num n => exact errorResponse_code _ _ _ h
            | arr xs => exact errorResponse_code _ _ _ h
            | obj f => exact errorResponse_code _ _ _ h
        · rw [if_neg h4] at h
          by_cases h5 : name = "show_table_indexes"
          · rw [if_pos h5] at h
            cases ha : mapGet args "table_name" with
            | none => rw [ha] at h; exact errorResponse_code _ _ _ h
            | some v =>
              rw [ha] at h
              cases v with
              | str t => exact showTableIndexes_code _ _ _ _ h
              | null => exact errorResponse_code _ _ _ h
              | boolean b => exact errorResponse_code _ _ _ h
              | num n => exact errorResponse_code _ _ _ h
              | arr xs => exact errorResponse_code _ _ _ h
              | obj f => exact errorResponse_code _ _ _ h
          · rw [if_neg h5] at h
            exact errorResponse_code _ _ _ h

/-- C10: within tools/call, every dispatch-level error is emitted through
errorResponse with code -32603 — missing or non-string required argument,
unknown tool name, gate rejection and database failure alike, so the code
alone does not distinguish them; only an unknown method (-32601) and
unparseable tools/call params (-32602) carry different codes. -/
theorem c10_error_code_uniformity :
    (∀ (s : Server) (req : MCPRequest) (name : String) (args : List (String × GoVal))
        (e : MCPError), req.method = "tools/call" →
        req.params = RawParams.wellFormed name args →
        (handleRequest s req).1.error = some e → e.code = -32603)
    ∧ (∀ (s : Server) (req : MCPRequest) (e : MCPError), req.method = "tools/call" →
        (∀ name args, req.params ≠ RawParams.wellFormed name args) →
        (handleRequest s req).1.error = some e →
        e.code = -32602 ∧ e.message = "Invalid params")
    ∧ (∀ (s : Server) (req : MCPRequest) (e : MCPError),
        req.method ≠ "initialize" → req.method ≠ "tools/list" → req.method ≠ "tools/call" →
        (handleRequest s req).1.error = some e →
        e.code = -32601 ∧ e.message = "Method not found")
    ∧ (handleToolCall sampleServer
        ⟨"2.0", GoVal.null, "tools/call", RawParams.wellFormed "describe_table" []⟩).1.error =
        some ⟨-32603, "table_name is required"⟩
    ∧ (handleToolCall sampleServer
        ⟨"2.0", GoVal.null, "tools/call", RawParams.wellFormed "no_such_tool" []⟩).1.error =
        some ⟨-32603, "Unknown tool"⟩
    ∧ (handleToolCall sampleServer
        ⟨"2.0", GoVal.null, "tools/call",
          RawParams.wellFormed "execute_query"
            [("query", GoVal.str "DROP TABLE users")]⟩).1.error =
        some ⟨-32603, gateMsg⟩
    ∧ (handleToolCall failServer
        ⟨"2.0", GoVal.null, "tools/call",
          RawParams.wellFormed "execute_query"
            [("query", GoVal.str "SELECT 1")]⟩).1.error =
        some ⟨-32603, "查询错误: boom"⟩ := by
  refine ⟨?_, ?_, ?_, by decide, by decide, by decide, by decide⟩
  · intro s req name args e hm hp h
    unfold handleRequest at h
    rw [hm] at h
    simp only [String.reduceEq, reduceIte] at h
    exact handleToolCall_wf_code s req name args e hp h
  · intro s req e hm hp h
    unfold handleRequest at h
    rw [hm] at h
    simp only [String.reduceEq, reduceIte] at h
    unfold handleToolCall at h
    cases hq : req.params with
    | absent =>
      rw [hq] at h
      dsimp only at h
      injection h with h2
      rw [← h2]
      exact ⟨rfl, rfl⟩
    | malformed =>
      rw [hq] at h
      dsimp only at h
      injection h with h2
      rw [← h2]
      exact ⟨rfl, rfl⟩
    | wellFormed name args => exact absurd hq (hp name args)
  · intro s req e h1 h2 h3 h
    unfold handleRequest at h
    rw [if_neg h1, if_neg h2, if_neg h3] at h
    injection h with h4
    rw [← h4]
    exact ⟨rfl, rfl⟩

/-- C10 witness: the -32603 classification applied to a concrete
tools/call request with a missing required argument. -/
theorem c10_error_code_uniformity_witness :
    (MCPError.mk (-32603) "table_name is required").code = -32603 :=
  c10_error_code_uniformity.1 sampleServer
    ⟨"2.0", GoVal.null, "tools/call", RawParams.wellFormed "describe_table" []⟩
    "describe_table" [] ⟨-32603, "table_name is required"⟩ rfl rfl (by decide)

lemma initWidths_foldl_eval (columns : List String) (m : String → Nat) (c : String) :
    (columns.foldl (fun m col => mapUpd m col col.length) m) c =
      if c ∈ columns then c.length else m c := by
  induction columns generalizing m with
  | nil => simp
  | cons k ks ih =>
    rw [List.foldl_cons, ih]
    by_cases hc : c ∈ ks
    · simp [hc]
    · by_cases hk : c = k
      · subst hk
        simp [hc, mapUpd]
      · simp [hc, hk, mapUpd]

lemma initWidths_eval (columns : List String) (c : String) :
    initWidths columns c = if c ∈ columns then c.length else 0 :=
  initWidths_foldl_eval columns _ c

lemma widenStep_eval (row : String → Cell) (m : String → Nat) (k c : String) :
    (if (valueToStr (row k)).length > m k then mapUpd m k (valueToStr (row k)).length
     else m) c =
      if c = k then max (m c) (valueToStr (row c)).length else m c := by
  by_cases hk : c = k
  · subst hk
    by_cases hgt : (valueToStr (row c)).length > m c
    · simp [mapUpd, hgt]
      omega
    · simp [mapUpd, hgt]
      omega
  · by_cases hgt : (valueToStr (row k)).length > m k <;> simp [mapUpd, hk, hgt]

lemma widenRow_foldl_eval (columns : List String) (row : String → Cell)
    (m : String → Nat) (c : String) :
    (columns.foldl
      (fun m col =>
        let valueStr := valueToStr (row col)
        if valueStr.length > m col then mapUpd m col valueStr.length else m)
      m) c =
      if c ∈ columns then max (m c) (valueToStr (row c)).length else m c := by
  induction columns generalizing m with
  | nil => simp
  | cons k ks ih =>
    rw [List.foldl_cons]
    dsimp only
    rw [ih]
    simp only [widenStep_eval]
    by_cases hk : c = k <;> by_cases hc : c ∈ ks <;>
      simp [hk, hc, List.mem_cons]

lemma widenRow_eval (columns : List String) (row : String → Cell) (m : String → Nat)
    (c : String) :
    widenRow columns row m c =
      if c ∈ columns then max (m c) (valueToStr (row c)).length else m c := by
  unfold widenRow
  exact widenRow_foldl_eval columns row m c

/-- The maximum stringified-value length of a column over a result list
(the inner maximum of the spec width formula). -/
def specMaxValLen (results : List (String → Cell)) (c : String) : Nat :=
  results.foldr (fun row acc => max (valueToStr (row c)).length acc) 0

lemma computeColWidths_foldl_eval (columns : List String)
    (results : List (String → Cell)) (m : String → Nat) (c : String)
    (hc : c ∈ columns) :
    (results.foldl (fun m row => widenRow columns row m) m) c =
      max (m c) (specMaxValLen results c) := by
  induction results generalizing m with
  | nil => simp [specMaxValLen]
  | cons r rs ih =>
    rw [List.foldl_cons, ih, widenRow_eval, if_pos hc]
    simp only [specMaxValLen, List.foldr_cons]
    exact max_assoc _ _ _

lemma computeColWidths_eval (columns : List String) (results : List (String → Cell))
    (c : String) (hc : c ∈ columns) :
    computeColWidths columns results c = max c.length (specMaxValLen results c) := by
  unfold computeColWidths
  rw [computeColWidths_foldl_eval _ _ _ _ hc, initWidths_eval, if_pos hc]

lemma clampWidth_eq_min_max (w : Nat) : clampWidth w = min 30 (max 8 w) := by
  unfold clampWidth
  dsimp only
  split <;> split <;> omega

lemma length_mk (l : List Char) : (String.mk l).length = l.length := rfl

lemma totalWidth_foldl (columns : List String) (w : String → Nat) (init : Nat) :
    columns.foldl (fun tot col => tot + (clampWidth (w col) + 1)) init =
      init + (columns.map (fun col => clampWidth (w col))).sum + columns.length := by
  induction columns generalizing init with
  | nil => simp
  | cons k ks ih =>
    rw [List.foldl_cons, ih]
    simp
    omega

/-- C4: for every non-empty rendered result set, each column's used width
is max(len(columnName), max over all rows of len(stringified value))
clamped to [8, 30]; every non-nil value longer than 30 characters is
rendered as its first 27 characters plus "..." (30 characters in total);
and the separator consists of dashes counting the sum of the clamped
widths plus one per column. -/
theorem c4_column_widths (columns : List String) (results : List (String → Cell))
    (_hne : results ≠ []) :
    (∀ col ∈ columns, clampWidth (computeColWidths columns results col) =
      min 30 (max 8 (max col.length (specMaxValLen results col))))
    ∧ (∀ v : String, v.length > 30 →
        truncateVal (some v) = goTake v 27 ++ "..." ∧
          (goTake v 27 ++ "...").length = 30)
    ∧ (sepCells columns (computeColWidths columns results)).length =
        (columns.map (fun col => clampWidth (computeColWidths columns results col))).sum
          + columns.length := by
  refine ⟨?_, ?_, ?_⟩
  · intro col hc
    rw [clampWidth_eq_min_max, computeColWidths_eval _ _ _ hc]
  · intro v hv
    constructor
    · simp [truncateVal, hv]
    · rw [String.length_append]
      have h1 : (goTake v 27).length = min 27 v.data.length := by
        unfold goTake
        rw [length_mk, List.length_take]
      have h2 : v.length = v.data.length := rfl
      have h3 : ("..." : String).length = 3 := by decide
      omega
  · unfold sepCells
    rw [length_mk, List.length_replicate]
    unfold totalWidth
    rw [totalWidth_foldl]
    omega

/-- The sample row of the spec (§8): id 1, name Alice Smith. -/
def c4row : String → Cell := buildRow ["id", "name"] [some "1", some "Alice Smith"]

/-- A 35-character value, exceeding the 30 clamp. -/
def c4longValue : String := "aaaaaaaaaaaaaaaaaaaaaaaaaaaaaaaaaaa"

/-- C4 witness: the width theorem at the spec's sample table and a
35-character value. -/
theorem c4_column_widths_witness :
    clampWidth (computeColWidths ["id", "name"] [c4row] "name") =
      min 30 (max 8 (max "name".length (specMaxValLen [c4row] "name")))
    ∧ (truncateVal (some c4longValue) = goTake c4longValue 27 ++ "..." ∧
        (goTake c4longValue 27 ++ "...").length = 30)
    ∧ (sepCells ["id", "name"] (computeColWidths ["id", "name"] [c4row])).length =
        (List.map (fun col => clampWidth (computeColWidths ["id", "name"] [c4row] col))
          ["id", "name"]).sum + (["id", "name"] : List String).length :=
  ⟨(c4_column_widths ["id", "name"] [c4row] (by simp)).1 "name" (by simp),
   (c4_column_widths ["id", "name"] [c4row] (by simp)).2.1 c4longValue (by decide),
   (c4_column_widths ["id", "name"] [c4row] (by simp)).2.2⟩

/-- Split a character list at newline characters (the lines of a text,
with a final empty piece when the text ends in a newline). -/
def splitNl : List Char → List (List Char)
  | [] => [[]]
  | c :: cs =>
    if c = '\n' then [] :: splitNl cs
    else
      match splitNl cs with
      | [] => [[c]]
      | l :: ls => (c :: l) :: ls

/-- The lines of a string. -/
def splitLines (s : String) : List String := (splitNl s.data).map String.mk

/-- Concatenation of a list of strings. -/
def sconcat (ls : List String) : String := ls.foldr (· ++ ·) ""

/-- Each element of the list followed by a newline, concatenated. -/
def linesJoin (ls : List String) : String := sconcat (ls.map (fun l => l ++ "\n"))

lemma splitNl_cons_nl (b : List Char) : splitNl ('\n' :: b) = [] :: splitNl b := by
  simp [splitNl]

lemma splitNl_chunk (a b : List Char) (h : ∀ c ∈ a, c ≠ '\n') :
    splitNl (a ++ '\n' :: b) = a :: splitNl b := by
  induction a with
  | nil =>
    rw [List.nil_append, splitNl_cons_nl]
  | cons c cs ih =>
    have hc : c ≠ '\n' := h c (List.mem_cons_self c cs)
    rw [List.cons_append]
    show splitNl (c :: (cs ++ '\n' :: b)) = (c :: cs) :: splitNl b
    rw [show splitNl (c :: (cs ++ '\n' :: b)) =
        if c = '\n' then [] :: splitNl (cs ++ '\n' :: b)
        else match splitNl (cs ++ '\n' :: b) with
          | [] => [[c]]
          | l :: ls => (c :: l) :: ls
      from rfl]
    rw [if_neg hc, ih (fun x hx => h x (List.mem_cons_of_mem c hx))]

lemma linesJoin_cons (x : String) (ls : List String) :
    linesJoin (x :: ls) = (x ++ "\n") ++ linesJoin ls := rfl

lemma linesJoin_data_cons (x : String) (ls : List String) :
    (linesJoin (x :: ls)).data = x.data ++ '\n' :: (linesJoin ls).data := by
  rw [linesJoin_cons, String.data_append, String.data_append]
  rw [List.append_assoc]
  rfl

lemma splitLines_linesJoin (ls : List String)
    (h : ∀ l ∈ ls, ∀ c ∈ l.data, c ≠ '\n') :
    splitLines (linesJoin ls) = ls ++ [""] := by
  induction ls with
  | nil => rfl
  | cons x xs ih =>
    unfold splitLines
    rw [linesJoin_data_cons, splitNl_chunk _ _ (h x (List.mem_cons_self x xs))]
    rw [List.map_cons]
    have hx : String.mk x.data = x := rfl
    rw [hx]
    have ih2 := ih (fun l hl => h l (List.mem_cons_of_mem x hl))
    unfold splitLines at ih2
    rw [ih2]
    rfl

lemma foldl_lines_eq {α : Type} (g : α → String) (l : List α) (acc : String) :
    l.foldl (fun a x => a ++ g x ++ "\n") acc =
      acc ++ sconcat (l.map (fun x => g x ++ "\n")) := by
  induction l generalizing acc with
  | nil =>
    rw [List.foldl_nil, List.map_nil]
    exact (String.append_empty acc).symm
  | cons x xs ih =>
    rw [List.foldl_cons, ih, List.map_cons]
    show (acc ++ g x ++ "\n") ++ sconcat (List.map (fun x => g x ++ "\n") xs) =
      acc ++ ((g x ++ "\n") ++ sconcat (List.map (fun x => g x ++ "\n") xs))
    simp only [String.append_assoc]

lemma bodyLines_eq (columns : List String) (w : String → Nat)
    (results : List (String → Cell)) :
    bodyLines columns w results = linesJoin (results.map (rowCells columns w)) := by
  unfold bodyLines linesJoin
  rw [foldl_lines_eq (rowCells columns w) results ""]
  rw [String.empty_append, List.map_map]
  rfl

lemma formatResults_linesJoin (columns : List String) (results : List (String → Cell))
    (hres : results ≠ []) :
    formatResults columns results =
      linesJoin (("查询结果 (" ++ natToStr results.length ++ " 行):") :: "" ::
        headerCells columns (computeColWidths columns results) ::
        sepCells columns (computeColWidths columns results) ::
        results.map (rowCells columns (computeColWidths columns results))) := by
  unfold formatResults
  dsimp only
  rw [if_pos (by exact List.length_pos.mpr hres)]
  rw [bodyLines_eq]
  rw [linesJoin_cons, linesJoin_cons, linesJoin_cons, linesJoin_cons]
  rw [show (" 行):\n\n" : String) = " 行):" ++ "\n" ++ "\n" from rfl]
  rw [String.empty_append]
  simp only [String.append_assoc]

lemma no_nl_of_all (l : List Char) (h : (l.all (fun c => c != '\n')) = true) :
    ∀ c ∈ l, c ≠ '\n' := by
  intro c hc
  have h2 := List.all_eq_true.mp h c hc
  simpa using h2

lemma padRight_no_nl (s : String) (w : Nat) (h : ∀ c ∈ s.data, c ≠ '\n') :
    ∀ c ∈ (padRight s w).data, c ≠ '\n' := by
  intro c hc
  unfold padRight at hc
  rw [String.data_append] at hc
  rcases List.mem_append.mp hc with hc2 | hc2
  · exact h c hc2
  · have := List.eq_of_mem_replicate hc2
    subst this
    decide

lemma truncateVal_no_nl (v : Cell) (h : ∀ c ∈ (valueToStr v).data, c ≠ '\n') :
    ∀ c ∈ (truncateVal v).data, c ≠ '\n' := by
  cases v with
  | none => exact h
  | some s =>
    by_cases hl : s.length > 30
    · intro c hc
      simp only [truncateVal, hl, if_true] at hc
      rw [String.data_append] at hc
      rcases List.mem_append.mp hc with hc2 | hc2
      · exact h c (List.mem_of_mem_take hc2)
      · exact no_nl_of_all ("..." : String).data (by decide) c hc2
    · intro c hc
      simp only [truncateVal, hl, if_false] at hc
      exact h c hc

lemma cellsFold_no_nl (g : String → String) (w : String → Nat) (cols : List String)
    (acc : String) (hacc : ∀ c ∈ acc.data, c ≠ '\n')
    (hg : ∀ col ∈ cols, ∀ c ∈ (g col).data, c ≠ '\n') :
    ∀ c ∈ (cols.foldl
        (fun acc col => acc ++ padRight (g col) (clampWidth (w col)) ++ " ") acc).data,
      c ≠ '\n' := by
  induction cols generalizing acc with
  | nil => exact hacc
  | cons k ks ih =>
    rw [List.foldl_cons]
    refine ih _ ?_ (fun col hcol => hg col (List.mem_cons_of_mem k hcol))
    intro c hc
    rw [String.data_append, String.data_append] at hc
    rcases List.mem_append.mp hc with hc2 | hc2
    · rcases List.mem_append.mp hc2 with hc3 | hc3
      · exact hacc c hc3
      · exact padRight_no_nl _ _ (hg k (List.mem_cons_self k ks)) c hc3
    · exact no_nl_of_all (" " : String).data (by decide) c hc2

lemma cellsFold_last (g : String → String) (w : String → Nat) (cols : List String)
    (acc : String) (hcols : cols ≠ []) :
    (cols.foldl
      (fun acc col => acc ++ padRight (g col) (clampWidth (w col)) ++ " ") acc).data.getLast?
      = some ' ' := by
  induction cols generalizing acc with
  | nil => exact absurd rfl hcols
  | cons k ks ih =>
    rw [List.foldl_cons]
    by_cases hks : ks = []
    · subst hks
      rw [List.foldl_nil, String.data_append]
      exact List.getLast?_concat _
    · exact ih _ hks

lemma headerCells_no_nl (columns : List String) (w : String → Nat)
    (h : ∀ col ∈ columns, ∀ c ∈ col.data, c ≠ '\n') :
    ∀ c ∈ (headerCells columns w).data, c ≠ '\n' := by
  unfold headerCells
  exact cellsFold_no_nl (fun col => col) w columns ""
    (no_nl_of_all ("" : String).data (by decide)) h

lemma headerCells_last (columns : List String) (w : String → Nat) (hcols : columns ≠ []) :
    (headerCells columns w).data.getLast? = some ' ' := by
  unfold headerCells
  exact cellsFold_last (fun col => col) w columns "" hcols

lemma rowCells_no_nl (columns : List String) (w : String → Nat) (row : String → Cell)
    (h : ∀ col ∈ columns, ∀ c ∈ (valueToStr (row col)).data, c ≠ '\n') :
    ∀ c ∈ (rowCells columns w row).data, c ≠ '\n' := by
  unfold rowCells
  exact cellsFold_no_nl (fun col => truncateVal (row col)) w columns ""
    (no_nl_of_all ("" : String).data (by decide))
    (fun col hcol => truncateVal_no_nl _ (h col hcol))

lemma rowCells_last (columns : List String) (w : String → Nat) (row : String → Cell)
    (hcols : columns ≠ []) :
    (rowCells columns w row).data.getLast? = some ' ' := by
  unfold rowCells
  exact cellsFold_last (fun col => truncateVal (row col)) w columns "" hcols

lemma digitChar_ne_nl (m : Nat) : Nat.digitChar m ≠ '\n' := by
  by_cases h : m < 16
  · interval_cases m <;> decide
  · unfold Nat.digitChar
    repeat rw [if_neg (by omega)]
    decide

lemma natDigitsAux_no_nl (fuel : Nat) :
    ∀ (n : Nat) (acc : List Char), (∀ c ∈ acc, c ≠ '\n') →
      ∀ c ∈ natDigitsAux fuel n acc, c ≠ '\n' := by
  induction fuel with
  | zero => intro n acc hacc c hc; exact hacc c hc
  | succ f ih =>
    intro n acc hacc c hc
    rw [show natDigitsAux (f + 1) n acc =
        if n < 10 then Nat.digitChar n :: acc
        else natDigitsAux f (n / 10) (Nat.digitChar (n % 10) :: acc) from rfl] at hc
    by_cases h10 : n < 10
    · rw [if_pos h10] at hc
      rcases List.mem_cons.mp hc with hc2 | hc2
      · subst hc2
        exact digitChar_ne_nl n
      · exact hacc c hc2
    · rw [if_neg h10] at hc
      refine ih (n / 10) _ ?_ c hc
      intro x hx
      rcases List.mem_cons.mp hx with hx2 | hx2
      · subst hx2
        exact digitChar_ne_nl _
      · exact hacc x hx2

lemma natToStr_no_nl (n : Nat) : ∀ c ∈ (natToStr n).data, c ≠ '\n' := by
  intro c hc
  exact natDigitsAux_no_nl (n + 1) n [] (by simp) c hc

lemma countLine_no_nl (n : Nat) :
    ∀ c ∈ ("查询结果 (" ++ natToStr n ++ " 行):").data, c ≠ '\n' := by
  intro c hc
  rw [String.data_append, String.data_append] at hc
  rcases List.mem_append.mp hc with hc2 | hc2
  · rcases List.mem_append.mp hc2 with hc3 | hc3
    · exact no_nl_of_all ("查询结果 (" : String).data (by decide) c hc3
    · exact natToStr_no_nl n c hc3
  · exact no_nl_of_all (" 行):" : String).data (by decide) c hc2

lemma sepCells_no_nl (columns : List String) (w : String → Nat) :
    ∀ c ∈ (sepCells columns w).data, c ≠ '\n' := by
  intro c hc
  unfold sepCells at hc
  have := List.eq_of_mem_replicate hc
  subst this
  decide

lemma ne_noRows_of_last_space (s : String) (h : s.data.getLast? = some ' ') :
    s ≠ noRowsMsg := by
  intro he
  rw [he] at h
  exact absurd h (by decide)

lemma sepCells_ne_noRows (columns : List String) (w : String → Nat) :
    sepCells columns w ≠ noRowsMsg := by
  intro h
  have hm : '没' ∈ (sepCells columns w).data := by
    rw [h]
    decide
  unfold sepCells at hm
  have := List.eq_of_mem_replicate hm
  exact absurd this (by decide)

lemma countLine_ne_noRows (n : Nat) :
    ("查询结果 (" ++ natToStr n ++ " 行):") ≠ noRowsMsg := by
  refine ne_of_head _ _ '查' '没' ?_ (by decide) (by decide)
  rw [String.data_append, String.data_append]
  rw [show ("查询结果 (" : String).data = '查' :: "询结果 (".data from rfl]
  rfl

lemma formatResults_splitLines (columns : List String) (results : List (String → Cell))
    (hres : results ≠ [])
    (hnlc : ∀ col ∈ columns, ∀ c ∈ col.data, c ≠ '\n')
    (hnlv : ∀ row ∈ results, ∀ col ∈ columns, ∀ c ∈ (valueToStr (row col)).data, c ≠ '\n') :
    splitLines (formatResults columns results) =
      (("查询结果 (" ++ natToStr results.length ++ " 行):") :: "" ::
        headerCells columns (computeColWidths columns results) ::
        sepCells columns (computeColWidths columns results) ::
        results.map (rowCells columns (computeColWidths columns results))) ++ [""] := by
  rw [formatResults_linesJoin columns results hres]
  refine splitLines_linesJoin _ ?_
  intro l hl
  rcases List.mem_cons.mp hl with h1 | hl
  · subst h1
    exact countLine_no_nl _
  rcases List.mem_cons.mp hl with h1 | hl
  · subst h1
    exact no_nl_of_all _ (by decide)
  rcases List.mem_cons.mp hl with h1 | hl
  · subst h1
    exact headerCells_no_nl _ _ hnlc
  rcases List.mem_cons.mp hl with h1 | hl
  · subst h1
    exact sepCells_no_nl _ _
  · obtain ⟨row, hrow, heq⟩ := List.mem_map.mp hl
    subst heq
    exact rowCells_no_nl _ _ _ (hnlv row hrow)

/-- C5 counterexample: a stringified value that contains the sentinel
text between newlines reproduces the sentinel as a line of the rendered
output of a NON-empty result set, so the claim that the sentinel line is
absent for every non-empty result set fails as stated. -/
theorem c5_sentinel_counterexample :
    ([buildRow ["c"] [some "没有找到数据\n"]] : List (String → Cell)) ≠ []
    ∧ noRowsMsg ∈ splitLines (formatResults ["c"] [buildRow ["c"] [some "没有找到数据\n"]]) := by
  constructor
  · simp
  · decide

/-- C5 as amended: an empty result set renders as exactly the count line
followed by the fixed sentinel line (no header, separator or data rows),
and executeQuery wraps that text for a gate-passing query whose result is
empty; for a non-empty result set (with at least one column) the
renderer appends no sentinel, and the sentinel line is absent from the
output provided no column name or stringified value contains a newline
character. -/
theorem c5_no_rows_sentinel :
    (∀ columns : List String, formatResults columns [] =
      "查询结果 (0 行):\n\n" ++ noRowsMsg ++ "\n")
    ∧ (∀ (s : Server) (id : GoVal) (q : String) (res : QueryResult),
        allowQuery q = true → s.db q = Except.ok res → res.rows = [] →
        (executeQuery s id q).1.result =
          some (RpcResult.content (formatResults res.columns [])))
    ∧ (∀ (columns : List String) (results : List (String → Cell)),
        results ≠ [] → columns ≠ [] →
        (∀ col ∈ columns, ∀ c ∈ col.data, c ≠ '\n') →
        (∀ row ∈ results, ∀ col ∈ columns, ∀ c ∈ (valueToStr (row col)).data, c ≠ '\n') →
        noRowsMsg ∉ splitLines (formatResults columns results)) := by
  refine ⟨?_, ?_, ?_⟩
  · intro columns
    rfl
  · intro s id q res hq hdb hrows
    rw [executeQuery_eq]
    simp only [hq, if_true]
    rw [hdb]
    dsimp only
    rw [hrows]
    rfl
  · intro columns results hres hcolsne hnlc hnlv hmem
    rw [formatResults_splitLines columns results hres hnlc hnlv] at hmem
    rcases List.mem_append.mp hmem with hm | hm
    · rcases List.mem_cons.mp hm with h | hm
      · exact countLine_ne_noRows _ h.symm
      rcases List.mem_cons.mp hm with h | hm
      · exact absurd h (by decide)
      rcases List.mem_cons.mp hm with h | hm
      · exact ne_noRows_of_last_space _ (headerCells_last columns _ hcolsne) h.symm
      rcases List.mem_cons.mp hm with h | hm
      · exact sepCells_ne_noRows _ _ h.symm
      · obtain ⟨row, _hrow, heq⟩ := List.mem_map.mp hm
        exact ne_noRows_of_last_space _ (rowCells_last columns _ row hcolsne) heq
    · rcases List.mem_cons.mp hm with h | hm
      · exact absurd h (by decide)
      · exact absurd hm (by simp)

/-- C5 witness: the empty result set renders the fixed sentinel text, and
the spec sample table (one row, columns id and name) contains no sentinel
line. -/
theorem c5_no_rows_sentinel_witness :
    formatResults ["id", "name"] [] = "查询结果 (0 行):\n\n" ++ noRowsMsg ++ "\n"
    ∧ noRowsMsg ∉ splitLines (formatResults ["id", "name"] [c4row]) :=
  ⟨c5_no_rows_sentinel.1 ["id", "name"],
   c5_no_rows_sentinel.2.2 ["id", "name"] [c4row] (by simp) (by simp)
     (by decide) (by decide)⟩

end MysqlMcp
